import Mathlib

/-!
Verification of the CreditTracker repository (CLI `main.py`, Tkinter GUI
`app.py`, web front-end `streamlit_app.py`, persistence `storage.py`,
data model `models.py`).

The embedding models JSON documents as an inductive value type `JVal`
(the result of Python's `json.loads` / the argument of `json.dumps`).
The textual JSON layer is the Python standard library, not repository
code; file contents are therefore modelled at the parsed-value level:
a `FileContent` records whether the file is missing, unreadable, empty
after stripping, malformed JSON, or a parsed JSON value, and writing a
file stores the serialized value.  Strings use Lean `String`; Python
`str.strip` / `str.lower` are modelled on the ASCII range, which the
repository's field handling (substring test for "chase", digit parsing)
lives in.
-/

/-- A JSON value, as produced by `json.loads`.  Objects are ordered
association lists with distinct keys (Python dicts). -/
inductive JVal where
  | null
  | bool (b : Bool)
  | num (n : Int)
  | str (s : String)
  | arr (elems : List JVal)
  | obj (fields : List (String × JVal))

/-- A Python dict with string keys, the shape of a card record. -/
abbrev JDict := List (String × JVal)

/-- `d.get(k)` on a Python dict: the value bound to `k`, if any. -/
def jget (d : JDict) (k : String) : Option JVal :=
  (d.find? (fun p => p.1 == k)).map (fun p => p.2)

/-- `d.get(k, dflt)` on a Python dict. -/
def jgetD (d : JDict) (k : String) (dflt : JVal) : JVal :=
  (jget d k).getD dflt

/-- Python ASCII whitespace characters recognised by `str.strip()`. -/
def isPySpace (c : Char) : Bool :=
  c == ' ' || c == '\t' || c == '\n' || c == '\r' ||
  c == Char.ofNat 11 || c == Char.ofNat 12

/-- `str.strip()` on a character list. -/
def pyStripL (l : List Char) : List Char :=
  ((l.dropWhile isPySpace).reverse.dropWhile isPySpace).reverse

/-- `str.strip()` (ASCII whitespace model). -/
def pyStrip (s : String) : String := ⟨pyStripL s.data⟩

/-- `str.lower()` on one character (ASCII model). -/
def lowerChar (c : Char) : Char :=
  if 'A' ≤ c && c ≤ 'Z' then Char.ofNat (c.toNat + 32) else c

/-- `str.lower()` (ASCII model). -/
def lowerAscii (s : String) : String := ⟨s.data.map lowerChar⟩

/-- Python's substring test `nee in hay` on character lists. -/
def isSubL (nee : List Char) : List Char → Bool
  | [] => nee.isEmpty
  | c :: t => nee.isPrefixOf (c :: t) || isSubL nee t

/-- Python's substring test `nee in hay` on strings. -/
def pyInStr (nee hay : String) : Bool := isSubL nee.data hay.data

/-- Split a character list at every occurrence of `sep` (the component
decomposition performed by the `strptime` regular expressions, whose
numeric fields must fill the whole run between the literal separators). -/
def splitSep (sep : Char) : List Char → List (List Char)
  | [] => [[]]
  | c :: t =>
    if c = sep then [] :: splitSep sep t
    else
      match splitSep sep t with
      | [] => [[c]]
      | g :: gs => (c :: g) :: gs

/-- Decimal value of a digit run. -/
def digitsVal (l : List Char) : Nat :=
  l.foldl (fun a c => a * 10 + (c.toNat - 48)) 0

/-- The `%Y` field of `strptime`: exactly four digits. -/
def yearTok (l : List Char) : Bool :=
  l.length == 4 && l.all Char.isDigit

/-- A 1-2 digit numeric `strptime` field (`%m` with `hi = 12`, `%d` with
`hi = 31`): the regular expression alternation accepts exactly the runs
of one or two digits whose value lies in `1..hi`. -/
def fieldTok (hi : Nat) (l : List Char) : Bool :=
  (l.length == 1 || l.length == 2) && l.all Char.isDigit &&
  decide (1 ≤ digitsVal l) && decide (digitsVal l ≤ hi)

/-- Gregorian leap year. -/
def isLeap (y : Nat) : Bool :=
  y % 4 == 0 && (y % 100 != 0 || y % 400 == 0)

/-- Number of days in month `m` of year `y`. -/
def daysInMonth (y m : Nat) : Nat :=
  if m = 2 then (if isLeap y then 29 else 28)
  else if m = 4 || m = 6 || m = 9 || m = 11 then 30
  else 31

/-- A calendar date (the date component of a Python `datetime`). -/
structure CDate where
  y : Nat
  m : Nat
  d : Nat
deriving DecidableEq, Repr

/-- Days elapsed in year `y` before month `m` begins. -/
def daysBeforeMonth (y m : Nat) : Nat :=
  [0, 0, 31, 59, 90, 120, 151, 181, 212, 243, 273, 304, 334].getD m 0 +
    (if 3 ≤ m && isLeap y then 1 else 0)

/-- Days from 0001-01-01 to the given date (proleptic Gregorian). -/
def toRataDie (dt : CDate) : Nat :=
  365 * (dt.y - 1) + (dt.y - 1) / 4 + (dt.y - 1) / 400 - (dt.y - 1) / 100 +
    daysBeforeMonth dt.y dt.m + (dt.d - 1)

/-- Inverse of `toRataDie` (Gregorian civil-from-days computation). -/
def fromRataDie (n : Nat) : CDate :=
  let z := n + 306
  let era := z / 146097
  let doe := z % 146097
  let yoe := (doe - doe / 1460 + doe / 36524 - doe / 146096) / 365
  let y0 := yoe + era * 400
  let doy := doe - (365 * yoe + yoe / 4 - yoe / 100)
  let mp := (5 * doy + 2) / 153
  let d := doy - (153 * mp + 2) / 5 + 1
  let m := if mp < 10 then mp + 3 else mp - 9
  ⟨if m ≤ 2 then y0 + 1 else y0, m, d⟩

/-- Decimal rendering zero-padded to width `w` (`strftime` numeric field). -/
def padNum (w n : Nat) : String :=
  let s := toString n
  ⟨List.replicate (w - s.length) '0' ++ s.data⟩

/-- `datetime.strftime("%Y-%m-%d")`. -/
def formatDate (dt : CDate) : String :=
  padNum 4 dt.y ++ "-" ++ padNum 2 dt.m ++ "-" ++ padNum 2 dt.d

/-- `datetime.strptime(s, "%Y<sep>%m<sep>%d")`: three separator-delimited
numeric fields (year of four digits, month and day of one or two digits in
regex range), then the `datetime` constructor checks `1 <= year` and that
the day exists in the month.  `none` models the raised `ValueError`. -/
def strptimeYmd (sep : Char) (s : List Char) : Option CDate :=
  match splitSep sep s with
  | [ys, ms, ds] =>
    if yearTok ys && fieldTok 12 ms && fieldTok 31 ds then
      let y := digitsVal ys
      let m := digitsVal ms
      let d := digitsVal ds
      if 1 ≤ y ∧ d ≤ daysInMonth y m then some ⟨y, m, d⟩ else none
    else none
  | _ => none

/-- `datetime.strptime(s, "%m<sep>%d<sep>%Y")`. -/
def strptimeMdy (sep : Char) (s : List Char) : Option CDate :=
  match splitSep sep s with
  | [ms, ds, ys] =>
    if yearTok ys && fieldTok 12 ms && fieldTok 31 ds then
      let y := digitsVal ys
      let m := digitsVal ms
      let d := digitsVal ds
      if 1 ≤ y ∧ d ≤ daysInMonth y m then some ⟨y, m, d⟩ else none
    else none
  | _ => none

/-- The date-format loop of `count_chase_5_24`: the formats
`"%Y-%m-%d"`, `"%m/%d/%Y"`, `"%Y/%m/%d"`, `"%m-%d-%Y"` tried in order. -/
def tryParseDate (s : String) : Option CDate :=
  (strptimeYmd '-' s.data).orElse fun _ =>
    (strptimeMdy '/' s.data).orElse fun _ =>
      (strptimeYmd '/' s.data).orElse fun _ =>
        strptimeMdy '-' s.data

/-- `validate_date` of `main.py` and of `streamlit_app.py` (identical
bodies): `datetime.strptime(date_str, "%Y-%m-%d")` succeeds. -/
def validate_date (date_str : String) : Bool :=
  (strptimeYmd '-' date_str.data).isSome

/-- Python `(x or "")` applied to an optional field value, followed by a
`.strip()` call site that requires a string: falsy values give `""`,
strings give themselves, and a truthy non-string raises `AttributeError`
at `.strip()`, modelled as `none`. -/
def pyOrEmptyStr : Option JVal → Option String
  | none => some ""
  | some JVal.null => some ""
  | some (JVal.str s) => some s
  | some (JVal.bool b) => if b then none else some ""
  | some (JVal.num n) => if n = 0 then none else some ""
  | some (JVal.arr l) => if l.isEmpty then some "" else none
  | some (JVal.obj f) => if f.isEmpty then some "" else none

/-- Microseconds per day: `datetime` arithmetic is exact at microsecond
resolution, and `strptime` results sit at midnight. -/
def usPerDay : Int := 86400000000

/-- The largest representable Python date, `datetime.max`'s date. -/
def maxRataDie : Nat := toRataDie ⟨9999, 12, 31⟩

/-- Outcome of one iteration of the card loop in `count_chase_5_24`. -/
inductive ChaseStep where
  | crash
  | skip
  | qual (rd : Nat)

/-- One iteration of the loop body of `count_chase_5_24`: read and strip
the issuer, test for the substring "chase" after lowering, read, strip and
parse the opened date, and compare with the cutoff `now - 730 days`. -/
def chaseCardStep (cutoff : Int) (card : JDict) : ChaseStep :=
  match pyOrEmptyStr (jget card "issuer") with
  | none => ChaseStep.crash
  | some rawIssuer =>
    let issuer := pyStrip rawIssuer
    if pyInStr "chase" (lowerAscii issuer) then
      match pyOrEmptyStr (jget card "opened_date") with
      | none => ChaseStep.crash
      | some rawDate =>
        let date_str := pyStrip rawDate
        if date_str = "" then ChaseStep.skip
        else
          match tryParseDate date_str with
          | none => ChaseStep.skip
          | some dt =>
            if cutoff ≤ (toRataDie dt : Int) * usPerDay then ChaseStep.qual (toRataDie dt)
            else ChaseStep.skip
    else ChaseStep.skip

/-- The accumulator loop of `count_chase_5_24`, threading the running
count and the running oldest qualifying date. -/
def chaseLoop (cutoff : Int) : List JDict → Nat → Option Nat → Option (Nat × Option Nat)
  | [], count, oldest => some (count, oldest)
  | card :: rest, count, oldest =>
    match chaseCardStep cutoff card with
    | ChaseStep.crash => none
    | ChaseStep.skip => chaseLoop cutoff rest count oldest
    | ChaseStep.qual rd =>
      chaseLoop cutoff rest (count + 1)
        (some (match oldest with
               | none => rd
               | some o => if rd < o then rd else o))

/-- `count_chase_5_24` of `streamlit_app.py`, with the session card list
and the clock passed explicitly (`now` in microseconds from 0001-01-01).
`none` models an uncaught exception (a truthy non-string field, or the
`timedelta` addition overflowing past `datetime.max`). -/
def count_chase_5_24 (current_cards : List JDict) (now : Int) : Option (Nat × String) :=
  let cutoff := now - 730 * usPerDay
  match chaseLoop cutoff current_cards 0 none with
  | none => none
  | some (count, oldest) =>
    match oldest with
    | none => some (count, "N/A")
    | some rd =>
      if rd + 730 ≤ maxRataDie then some (count, formatDate (fromRataDie (rd + 730)))
      else none

/-- A text-valued field: absent, `null`, or a string.  The loop of
`count_chase_5_24` treats exactly these without raising. -/
def strFieldOk (card : JDict) (k : String) : Bool :=
  match jget card k with
  | none => true
  | some JVal.null => true
  | some (JVal.str _) => true
  | _ => false

/-- A card record whose issuer and opened-date fields are text. -/
def wfChaseCard (card : JDict) : Bool :=
  strFieldOk card "issuer" && strFieldOk card "opened_date"

/-- The text of a field, reading absent or non-string values as `""`. -/
def strField (card : JDict) (k : String) : String :=
  match jget card k with
  | some (JVal.str s) => s
  | _ => ""

/-- The issuer text contains "chase" case-insensitively. -/
def chaseIssuer (card : JDict) : Bool :=
  pyInStr "chase" (lowerAscii (pyStrip (strField card "issuer")))

/-- The qualifying date of a card for the 5/24 count: defined when the
issuer matches, the stripped opened date parses under one of the accepted
formats, and the date lies within the 730 days before `now`. -/
def chaseQualDate (now : Int) (card : JDict) : Option Nat :=
  if chaseIssuer card then
    match tryParseDate (pyStrip (strField card "opened_date")) with
    | some dt =>
      if now - 730 * usPerDay ≤ (toRataDie dt : Int) * usPerDay then some (toRataDie dt)
      else none
    | none => none
  else none

/-- A card qualifies for the 5/24 count. -/
def chaseQualifies (now : Int) (card : JDict) : Bool :=
  (chaseQualDate now card).isSome

/-- `normalize_card` on a dict: the five normalized fields in order. -/
def normalizeFields (card : JDict) : JDict :=
  [("card_name", jgetD card "card_name" (JVal.str "Unknown")),
   ("welcome_points", jgetD card "welcome_points" (JVal.num 0)),
   ("opened_date", jgetD card "opened_date" (JVal.str "")),
   ("issuer", jgetD card "issuer" (JVal.str "Unknown")),
   ("benefits", jgetD card "benefits" (JVal.str ""))]

/-- `normalize_card` of `streamlit_app.py`.  `none` models the
`AttributeError` raised by `.get` on a non-dict argument. -/
def normalize_card : JVal → Option JDict
  | JVal.obj fields => some (normalizeFields fields)
  | _ => none

/-- `normalize_wishlist_card` on a dict: the four normalized fields. -/
def normalizeWishFields (card : JDict) : JDict :=
  [("card_name", jgetD card "card_name" (JVal.str "Unknown")),
   ("issuer", jgetD card "issuer" (JVal.str "Unknown")),
   ("target_points", jgetD card "target_points" (JVal.num 0)),
   ("notes", jgetD card "notes" (JVal.str ""))]

/-- `normalize_wishlist_card` of `streamlit_app.py`. -/
def normalize_wishlist_card : JVal → Option JDict
  | JVal.obj fields => some (normalizeWishFields fields)
  | _ => none

/-- A Python list comprehension `[f(c) for c in l]` over a fallible
per-element function: stops at the first raised exception. -/
def mapCards (f : JVal → Option JDict) : List JVal → Option (List JDict)
  | [] => some []
  | x :: t =>
    match f x, mapCards f t with
    | some c, some cs => some (c :: cs)
    | _, _ => none

/-- `parse_json_data` of `streamlit_app.py`: a bare list is the legacy
current-card list; a dict is read through its "current" and "wishlist"
keys, a dict without a "current" list whose "current" value (if any) is
not a dict being treated as a single card; anything else yields two empty
lists.  `none` models an uncaught exception from a non-dict element. -/
def parse_json_data : JVal → Option (List JDict × List JDict)
  | JVal.arr l => (mapCards normalize_card l).map (fun cs => (cs, []))
  | JVal.obj fields =>
    let cur :=
      match jget fields "current" with
      | some (JVal.arr l) => mapCards normalize_card l
      | some (JVal.obj _) => some []
      | _ => some [normalizeFields fields]
    let wl :=
      match jget fields "wishlist" with
      | some (JVal.arr l) => mapCards normalize_wishlist_card l
      | _ => some []
    match cur, wl with
    | some c, some w => some (c, w)
    | _, _ => none
  | _ => some ([], [])

/-- `export_json_data` of `streamlit_app.py`: the serialized value
`{"current": [...], "wishlist": [...]}` (rendered by `json.dumps` with
`indent=2`; the text layer is the standard library and is modelled by the
value it denotes). -/
def export_json_data (current_cards wishlist_cards : List JDict) : JVal :=
  JVal.obj [("current", JVal.arr (current_cards.map JVal.obj)),
            ("wishlist", JVal.arr (wishlist_cards.map JVal.obj))]

/-- What `load_cards` observes about a file: absent, unreadable (an
`OSError` on open or read), empty after `strip()`, text rejected by
`json.loads` (a `JSONDecodeError`), or text parsing to a JSON value. -/
inductive FileContent where
  | missing
  | unreadable
  | emptyText
  | malformed
  | json (v : JVal)

/-- `load_cards` of `storage.py`: the returned card list together with
the list of error messages printed.  Total: every file content yields a
value, modelling that the function never raises to its caller. -/
def load_cards : FileContent → List JVal × List String
  | FileContent.missing => ([], [])
  | FileContent.unreadable => ([], ["Error reading file. Starting with an empty list."])
  | FileContent.emptyText => ([], [])
  | FileContent.malformed => ([], ["Error: invalid JSON. Starting with an empty list."])
  | FileContent.json v =>
    match v with
    | JVal.arr cards => (cards, [])
    | _ => ([], [])

/-- A file system: the set of existing directories and the files by path
(most recent write first), each file holding the JSON value its text
denotes. -/
structure FS where
  dirs : List String
  files : List (String × JVal)

/-- `os.path.dirname` on a character list (POSIX rules). -/
def dirnameL (l : List Char) : List Char :=
  let suf := (l.reverse.takeWhile (fun c => c ≠ '/')).length
  if suf = l.length then []
  else
    let head := l.take (l.length - suf)
    if head.all (fun c => c = '/') then head
    else (head.reverse.dropWhile (fun c => c = '/')).reverse

/-- `os.path.dirname`. -/
def dirname (s : String) : String := ⟨dirnameL s.data⟩

/-- `open(path, "w")` can succeed: the parent directory exists (the empty
dirname is the working directory). -/
def parentExistsB (fs : FS) (path : String) : Bool :=
  dirname path == "" || fs.dirs.contains (dirname path)

/-- The value stored at a path. -/
def readFS (fs : FS) (path : String) : Option JVal :=
  (fs.files.find? (fun p => p.1 == path)).map (fun p => p.2)

/-- `save_cards` of `storage.py`: writes `json.dump(cards, f, indent=2)`.
It opens the path directly — no directory is created — so the write fails
when the parent directory is absent; `ioFail` is the oracle for any other
I/O failure.  Returns the file system, the printed messages, and whether
the exception was re-raised to the caller. -/
def save_cards (fs : FS) (ioFail : Bool) (path : String) (cards : List JVal) :
    FS × List String × Bool :=
  if parentExistsB fs path && !ioFail then
    ({ fs with files := (path, JVal.arr cards) :: fs.files }, [], false)
  else
    (fs, ["Error saving to " ++ path], true)

/-- `save_to_file` of `streamlit_app.py` with the session state passed
explicitly: ensures the parent directory exists via `os.makedirs`, writes
the `export_json_data` text, and on failure records an error message in
`save_message` and re-raises.  Returns the file system, the value of
`save_message`, and whether an exception was raised. -/
def save_to_file (fs : FS) (ioFail : Bool) (db_path : String)
    (current_cards wishlist_cards : List JDict) : FS × String × Bool :=
  let parent := dirname db_path
  let fs1 :=
    if parent ≠ "" && !fs.dirs.contains parent then { fs with dirs := parent :: fs.dirs }
    else fs
  if ioFail then (fs1, "Error saving file: I/O error", true)
  else
    ({ fs1 with files := (db_path, export_json_data current_cards wishlist_cards) :: fs1.files },
     "Saved to " ++ db_path, false)

/-- Suffix of Python's integer-literal body after the first digit:
digits, with single underscores allowed between digits. -/
def udRest : List Char → Bool
  | [] => true
  | ['_'] => false
  | '_' :: c :: t => c.isDigit && udRest t
  | c :: t => c.isDigit && udRest t

/-- Digit body of `int(s)`: nonempty, starts with a digit, single
underscores allowed between digits. -/
def pyIntDigits (l : List Char) : Option Nat :=
  match l with
  | [] => none
  | c :: t =>
    if c.isDigit && udRest t then some (digitsVal ((c :: t).filter (fun x => x ≠ '_')))
    else none

/-- Python `int(s)` on a string (ASCII digits): strips whitespace, then
an optional sign and a digit body.  `none` models the `ValueError`. -/
def pyInt (s : String) : Option Int :=
  match pyStripL s.data with
  | '+' :: t => (pyIntDigits t).map (fun n => (n : Int))
  | '-' :: t => (pyIntDigits t).map (fun n => -(n : Int))
  | t => (pyIntDigits t).map (fun n => (n : Int))

/-- `validate_points` of `main.py`: `int(points_str)` succeeds and the
value is positive. -/
def validate_points (points_str : String) : Bool :=
  match pyInt points_str with
  | some points => decide (0 < points)
  | none => false

/-- Outcome of `CardTrackerApp.add_card`: which validation error dialog
was shown, or the card that was appended. -/
inductive AddOutcome where
  | nameError
  | pointsError
  | dateError
  | added (card : JDict)

/-- `CardTrackerApp.add_card` of `app.py` with the three form inputs
passed explicitly: validates name, points and date in order, returning
the (possibly extended) card list and the outcome. -/
def add_card (cards : List JDict) (nameInput pointsInput dateInput : String) :
    List JDict × AddOutcome :=
  let card_name := pyStrip nameInput
  let points_str := pyStrip pointsInput
  let date_str := pyStrip dateInput
  if card_name = "" then (cards, AddOutcome.nameError)
  else
    match pyInt points_str with
    | none => (cards, AddOutcome.pointsError)
    | some welcome_points =>
      if welcome_points ≤ 0 then (cards, AddOutcome.pointsError)
      else if validate_date date_str then
        let new_card : JDict :=
          [("card_name", JVal.str card_name),
           ("welcome_points", JVal.num welcome_points),
           ("opened_date", JVal.str date_str)]
        (cards ++ [new_card], AddOutcome.added new_card)
      else (cards, AddOutcome.dateError)

/-- One summand of Python's `sum` over `card.get(k, 0)`: a missing field
contributes the default `0`, a number its value, a Bool its integer
coercion; any other present value raises `TypeError`, modelled `none`. -/
def pointsTerm : Option JVal → Option Int
  | none => some 0
  | some (JVal.num n) => some n
  | some (JVal.bool b) => some (if b then 1 else 0)
  | some _ => none

/-- Python's `sum` over the generator `card.get(k, 0) for card in cards`,
the accumulation shared by the two totals. -/
def sumPointsLoop (k : String) (cards : List JDict) : Option Int :=
  cards.foldl
    (fun acc card =>
      match acc, pointsTerm (jget card k) with
      | some a, some b => some (a + b)
      | _, _ => none)
    (some 0)

/-- `total_welcome_points` of `streamlit_app.py`:
`sum(card.get("welcome_points", 0) for card in current_cards)`. -/
def total_welcome_points (current_cards : List JDict) : Option Int :=
  sumPointsLoop "welcome_points" current_cards

/-- `total_wishlist_points` of `streamlit_app.py`:
`sum(card.get("target_points", 0) for card in wishlist_cards)`. -/
def total_wishlist_points (wishlist_cards : List JDict) : Option Int :=
  sumPointsLoop "target_points" wishlist_cards

/-- The fields of an object value (`[]` on non-objects; used only under
hypotheses that the value is an object). -/
def objFields : JVal → JDict
  | JVal.obj f => f
  | _ => []

/-- Declarative wishlist of a parsed document: the normalized elements
of the "wishlist" list key, empty when that key is absent or not a list. -/
def wlOf (fields : JDict) : List JDict :=
  match jget fields "wishlist" with
  | some (JVal.arr w) => w.map (fun j => normalizeWishFields (objFields j))
  | _ => []

/-- The integer value of a record field, `0` when absent. -/
def fieldInt (card : JDict) (k : String) : Int :=
  match jget card k with
  | some (JVal.num n) => n
  | _ => 0

/-- A record field that is an integer or absent. -/
def intFieldOk (card : JDict) (k : String) : Bool :=
  match jget card k with
  | none => true
  | some (JVal.num _) => true
  | _ => false

/-- Running minimum over a list, seeded with an optional value: the
accumulation pattern of `oldest_date` in `count_chase_5_24`. -/
def minAcc : Option Nat → List Nat → Option Nat
  | o, [] => o
  | o, rd :: t =>
    minAcc (some (match o with
                  | none => rd
                  | some x => if rd < x then rd else x)) t

/-- Join groups with a separator: left inverse of `splitSep`. -/
def joinSep (sep : Char) : List (List Char) → List Char
  | [] => []
  | [g] => g
  | g :: g2 :: gs => g ++ sep :: joinSep sep (g2 :: gs)

/-- The date shape the spec describes for validation, stated from its
words: a four-digit year, a one-or-two-digit month `1..12` and a
one-or-two-digit day, separated by hyphens, denoting a real calendar
date (a positive year, the day existing in the month). -/
def specDateShape (s : String) : Prop :=
  ∃ ys ms ds : List Char,
    s.data = ys ++ '-' :: (ms ++ '-' :: ds) ∧
    ys.length = 4 ∧ (∀ c ∈ ys, c.isDigit = true) ∧
    (ms.length = 1 ∨ ms.length = 2) ∧ (∀ c ∈ ms, c.isDigit = true) ∧
    (ds.length = 1 ∨ ds.length = 2) ∧ (∀ c ∈ ds, c.isDigit = true) ∧
    1 ≤ digitsVal ys ∧ 1 ≤ digitsVal ms ∧ digitsVal ms ≤ 12 ∧
    1 ≤ digitsVal ds ∧ digitsVal ds ≤ daysInMonth (digitsVal ys) (digitsVal ms)

/-- A concrete Chase card opened 100 days before `exNow`, used to
instantiate universally quantified results on concrete data. -/
def exChaseCard : JDict :=
  [("card_name", JVal.str "Sapphire Preferred"),
   ("welcome_points", JVal.num 60000),
   ("opened_date", JVal.str "2024-09-23"),
   ("issuer", JVal.str "Chase"),
   ("benefits", JVal.str "")]

/-- A concrete non-Chase card. -/
def exAmexCard : JDict :=
  [("card_name", JVal.str "Gold"),
   ("welcome_points", JVal.num 90000),
   ("opened_date", JVal.str "2020-01-15"),
   ("issuer", JVal.str "American Express"),
   ("benefits", JVal.str "lounge")]

/-- A concrete clock value: midnight, 2025-01-01. -/
def exNow : Int := (739251 : Int) * usPerDay

/-- A concrete normalized wishlist record. -/
def exWish : JDict :=
  [("card_name", JVal.str "Venture X"),
   ("issuer", JVal.str "Capital One"),
   ("target_points", JVal.num 75000),
   ("notes", JVal.str "")]

/-! Helper lemmas: stripping, splitting and joining character lists. -/

theorem pyStripL_eq_rdropWhile (l : List Char) :
    pyStripL l = List.rdropWhile isPySpace (List.dropWhile isPySpace l) := rfl

theorem dropWhile_pyStripL (l : List Char) :
    List.dropWhile isPySpace (pyStripL l) = pyStripL l := by
  rw [pyStripL_eq_rdropWhile, List.dropWhile_eq_self_iff]
  intro hl
  have hpre := List.rdropWhile_prefix isPySpace (List.dropWhile isPySpace l)
  have hlen : 0 < (List.dropWhile isPySpace l).length :=
    lt_of_lt_of_le hl hpre.length_le
  have hnot := List.dropWhile_get_zero_not isPySpace l hlen
  have hget := List.IsPrefix.getElem hpre (n := 0) hl
  simpa [List.get_eq_getElem, hget] using hnot

theorem pyStripL_idem (l : List Char) : pyStripL (pyStripL l) = pyStripL l := by
  rw [pyStripL_eq_rdropWhile (pyStripL l), dropWhile_pyStripL, pyStripL_eq_rdropWhile l,
    List.rdropWhile_idempotent]

theorem pyStrip_idem (s : String) : pyStrip (pyStrip s) = pyStrip s := by
  show (⟨pyStripL (pyStripL s.data)⟩ : String) = ⟨pyStripL s.data⟩
  rw [pyStripL_idem]

theorem pyInt_pyStrip (s : String) : pyInt (pyStrip s) = pyInt s := by
  show (match pyStripL (pyStripL s.data) with
        | '+' :: t => (pyIntDigits t).map (fun n => (n : Int))
        | '-' :: t => (pyIntDigits t).map (fun n => -(n : Int))
        | t => (pyIntDigits t).map (fun n => (n : Int))) = pyInt s
  rw [pyStripL_idem]
  rfl

theorem splitSep_ne_nil (sep : Char) (l : List Char) : splitSep sep l ≠ [] := by
  induction l with
  | nil => simp [splitSep]
  | cons c t ih =>
    rw [splitSep]
    by_cases hc : c = sep
    · simp [hc]
    · rw [if_neg hc]
      cases h : splitSep sep t with
      | nil => simp
      | cons g gs => simp

theorem splitSep_no_sep (sep : Char) (l : List Char) (h : ∀ c ∈ l, c ≠ sep) :
    splitSep sep l = [l] := by
  induction l with
  | nil => rfl
  | cons c t ih =>
    have hc : c ≠ sep := h c (List.mem_cons_self c t)
    rw [splitSep, if_neg hc, ih (fun x hx => h x (List.mem_cons_of_mem c hx))]

theorem splitSep_append (sep : Char) (xs ys : List Char) (h : ∀ c ∈ xs, c ≠ sep) :
    splitSep sep (xs ++ sep :: ys) = xs :: splitSep sep ys := by
  induction xs with
  | nil => simp [splitSep]
  | cons c t ih =>
    have hc : c ≠ sep := h c (List.mem_cons_self c t)
    rw [List.cons_append, splitSep, if_neg hc,
      ih (fun x hx => h x (List.mem_cons_of_mem c hx))]

theorem joinSep_splitSep (sep : Char) (l : List Char) :
    joinSep sep (splitSep sep l) = l := by
  induction l with
  | nil => rfl
  | cons c t ih =>
    rw [splitSep]
    by_cases hc : c = sep
    · rw [if_pos hc]
      cases h : splitSep sep t with
      | nil => exact absurd h (splitSep_ne_nil sep t)
      | cons g gs =>
        rw [h] at ih
        show [] ++ sep :: joinSep sep (g :: gs) = c :: t
        rw [List.nil_append, ih, hc]
    · rw [if_neg hc]
      cases h : splitSep sep t with
      | nil => exact absurd h (splitSep_ne_nil sep t)
      | cons g gs =>
        rw [h] at ih
        cases gs with
        | nil =>
          show c :: g = c :: t
          rw [show g = t from ih]
        | cons g2 gs2 =>
          show (c :: g) ++ sep :: joinSep sep (g2 :: gs2) = c :: t
          rw [List.cons_append]
          exact congrArg (c :: ·) ih

theorem splitSep_groups (sep : Char) (l : List Char) :
    ∀ g ∈ splitSep sep l, ∀ c ∈ g, c ≠ sep := by
  induction l with
  | nil =>
    intro g hg
    simp only [splitSep, List.mem_singleton] at hg
    subst hg
    simp
  | cons c t ih =>
    intro g hg
    rw [splitSep] at hg
    by_cases hc : c = sep
    · rw [if_pos hc] at hg
      rcases List.mem_cons.mp hg with h1 | h2
      · subst h1; simp
      · exact ih g h2
    · rw [if_neg hc] at hg
      cases h : splitSep sep t with
      | nil => exact absurd h (splitSep_ne_nil sep t)
      | cons g0 gs =>
        rw [h] at hg
        rcases List.mem_cons.mp hg with h1 | h2
        · subst h1
          intro x hx
          rcases List.mem_cons.mp hx with rfl | hx2
          · exact hc
          · exact ih g0 (by rw [h]; exact List.mem_cons_self _ _) x hx2
        · exact ih g (by rw [h]; exact List.mem_cons_of_mem _ h2)

theorem digit_ne_of_not_digit {sep c : Char} (hsep : sep.isDigit = false)
    (hc : c.isDigit = true) : c ≠ sep := by
  intro h
  rw [h, hsep] at hc
  exact Bool.false_ne_true hc

theorem all_digits_ne_sep {sep : Char} (hsep : sep.isDigit = false)
    {l : List Char} (h : ∀ c ∈ l, c.isDigit = true) : ∀ c ∈ l, c ≠ sep :=
  fun c hc => digit_ne_of_not_digit hsep (h c hc)

theorem strptimeYmd_isSome_iff (sep : Char) (hsep : sep.isDigit = false) (s : List Char) :
    (strptimeYmd sep s).isSome = true ↔
      ∃ ys ms ds : List Char,
        s = ys ++ sep :: (ms ++ sep :: ds) ∧
        yearTok ys = true ∧ fieldTok 12 ms = true ∧ fieldTok 31 ds = true ∧
        1 ≤ digitsVal ys ∧ digitsVal ds ≤ daysInMonth (digitsVal ys) (digitsVal ms) := by
  constructor
  · intro h
    rw [strptimeYmd] at h
    cases hs : splitSep sep s with
    | nil => exact absurd hs (splitSep_ne_nil sep s)
    | cons g1 gs1 =>
      rw [hs] at h
      cases gs1 with
      | nil => exact absurd h (by simp)
      | cons g2 gs2 =>
        cases gs2 with
        | nil => exact absurd h (by simp)
        | cons g3 gs3 =>
          cases gs3 with
          | cons g4 gs4 => exact absurd h (by simp)
          | nil =>
            refine ⟨g1, g2, g3, ?_, ?_⟩
            · have hj := joinSep_splitSep sep s
              rw [hs] at hj
              exact hj.symm
            · have h2 : (if (yearTok g1 && fieldTok 12 g2 && fieldTok 31 g3) = true then
                  (if 1 ≤ digitsVal g1 ∧ digitsVal g3 ≤ daysInMonth (digitsVal g1) (digitsVal g2)
                   then some (⟨digitsVal g1, digitsVal g2, digitsVal g3⟩ : CDate) else none)
                  else none).isSome = true := h
              by_cases htok : (yearTok g1 && fieldTok 12 g2 && fieldTok 31 g3) = true
              · rw [if_pos htok] at h2
                by_cases hcal : 1 ≤ digitsVal g1 ∧
                    digitsVal g3 ≤ daysInMonth (digitsVal g1) (digitsVal g2)
                · simp only [Bool.and_eq_true] at htok
                  exact ⟨htok.1.1, htok.1.2, htok.2, hcal.1, hcal.2⟩
                · rw [if_neg hcal] at h2
                  exact absurd h2 (by simp)
              · rw [if_neg htok] at h2
                exact absurd h2 (by simp)
  · rintro ⟨ys, ms, ds, rfl, hy, hm, hd, h1, h2⟩
    have hyd : ∀ c ∈ ys, c.isDigit = true := by
      have := (Bool.and_eq_true _ _).mp hy
      simpa [List.all_eq_true] using this.2
    have hmd : ∀ c ∈ ms, c.isDigit = true := by
      simp only [fieldTok, Bool.and_eq_true] at hm
      simpa [List.all_eq_true] using hm.1.1.2
    have hdd : ∀ c ∈ ds, c.isDigit = true := by
      simp only [fieldTok, Bool.and_eq_true] at hd
      simpa [List.all_eq_true] using hd.1.1.2
    have hsplit : splitSep sep (ys ++ sep :: (ms ++ sep :: ds)) =
        [ys, ms, ds] := by
      rw [splitSep_append sep ys _ (all_digits_ne_sep hsep hyd),
        splitSep_append sep ms _ (all_digits_ne_sep hsep hmd),
        splitSep_no_sep sep ds (all_digits_ne_sep hsep hdd)]
    rw [strptimeYmd, hsplit]
    simp only [hy, hm, hd, Bool.and_self, if_pos (And.intro h1 h2)]
    rfl

theorem mapCards_all_obj (f : JDict → JDict) (g : JVal → Option JDict)
    (hg : ∀ fields, g (JVal.obj fields) = some (f fields))
    (l : List JVal) (h : ∀ j ∈ l, ∃ fs, j = JVal.obj fs) :
    mapCards g l = some (l.map (fun j => f (objFields j))) := by
  induction l with
  | nil => rfl
  | cons x t ih =>
    obtain ⟨fs, rfl⟩ := h x (List.mem_cons_self x t)
    rw [List.map_cons, mapCards, hg,
      ih (fun j hj => h j (List.mem_cons_of_mem _ hj))]
    rfl

theorem mapCards_map_obj (f : JDict → JDict) (g : JVal → Option JDict)
    (hg : ∀ fields, g (JVal.obj fields) = some (f fields))
    (l : List JDict) :
    mapCards g (l.map JVal.obj) = some (l.map f) := by
  induction l with
  | nil => rfl
  | cons x t ih =>
    rw [List.map_cons, List.map_cons, mapCards, hg, ih]

theorem sumPointsLoop_eq (k : String) (cards : List JDict)
    (h : ∀ c ∈ cards, intFieldOk c k = true) :
    sumPointsLoop k cards = some ((cards.map (fun c => fieldInt c k)).sum) := by
  suffices hgen : ∀ (l : List JDict) (a : Int), (∀ c ∈ l, intFieldOk c k = true) →
      l.foldl
        (fun acc card =>
          match acc, pointsTerm (jget card k) with
          | some a, some b => some (a + b)
          | _, _ => none)
        (some a) = some (a + (l.map (fun c => fieldInt c k)).sum) by
    have := hgen cards 0 h
    simpa [sumPointsLoop] using this
  intro l
  induction l with
  | nil => intro a _; simp
  | cons c t ih =>
    intro a hl
    have hc := hl c (List.mem_cons_self c t)
    have hterm : pointsTerm (jget c k) = some (fieldInt c k) := by
      unfold intFieldOk at hc
      unfold pointsTerm fieldInt
      cases hj : jget c k with
      | none => rfl
      | some v =>
        rw [hj] at hc
        cases v with
        | num n => rfl
        | null => exact absurd hc (by simp)
        | bool b => exact absurd hc (by simp)
        | str s => exact absurd hc (by simp)
        | arr l2 => exact absurd hc (by simp)
        | obj f2 => exact absurd hc (by simp)
    rw [List.foldl_cons, hterm, List.map_cons, List.sum_cons]
    have := ih (a + fieldInt c k) (fun x hx => hl x (List.mem_cons_of_mem _ hx))
    rw [this]
    ring_nf

theorem minAcc_some_spec (l : List Nat) :
    ∀ a, ∃ b, minAcc (some a) l = some b ∧ (b = a ∨ b ∈ l) ∧ b ≤ a ∧ ∀ x ∈ l, b ≤ x := by
  induction l with
  | nil => intro a; exact ⟨a, rfl, Or.inl rfl, le_refl a, by simp⟩
  | cons rd t ih =>
    intro a
    obtain ⟨b, hb, hmem, hle, hall⟩ := ih (if rd < a then rd else a)
    refine ⟨b, hb, ?_, ?_, ?_⟩
    · rcases hmem with h | h
      · by_cases hra : rd < a
        · rw [if_pos hra] at h
          exact Or.inr (h ▸ List.mem_cons_self rd t)
        · rw [if_neg hra] at h
          exact Or.inl h
      · exact Or.inr (List.mem_cons_of_mem _ h)
    · exact le_trans hle (by split <;> omega)
    · intro x hx
      rcases List.mem_cons.mp hx with rfl | hx2
      · exact le_trans hle (by split <;> omega)
      · exact hall x hx2

theorem minAcc_none_spec (l : List Nat) (hne : l ≠ []) :
    ∃ b, minAcc none l = some b ∧ b ∈ l ∧ ∀ x ∈ l, b ≤ x := by
  cases l with
  | nil => exact absurd rfl hne
  | cons rd t =>
    obtain ⟨b, hb, hmem, hle, hall⟩ := minAcc_some_spec t rd
    refine ⟨b, hb, ?_, ?_⟩
    · rcases hmem with h | h
      · exact h ▸ List.mem_cons_self rd t
      · exact List.mem_cons_of_mem _ h
    · intro x hx
      rcases List.mem_cons.mp hx with rfl | hx2
      · exact hle
      · exact hall x hx2

theorem tryParseDate_empty : tryParseDate "" = none := rfl

theorem chaseCardStep_eq (now : Int) (card : JDict) (h : wfChaseCard card = true) :
    chaseCardStep (now - 730 * usPerDay) card =
      match chaseQualDate now card with
      | some rd => ChaseStep.qual rd
      | none => ChaseStep.skip := by
  unfold wfChaseCard at h
  rw [Bool.and_eq_true] at h
  obtain ⟨hiss, hod⟩ := h
  have hiss3 : pyOrEmptyStr (jget card "issuer") = some (strField card "issuer") := by
    unfold strFieldOk at hiss
    unfold pyOrEmptyStr strField
    cases hj : jget card "issuer" with
    | none => rfl
    | some v =>
      rw [hj] at hiss
      cases v with
      | null => rfl
      | str s => rfl
      | bool b => exact absurd hiss (by simp)
      | num n => exact absurd hiss (by simp)
      | arr l => exact absurd hiss (by simp)
      | obj f => exact absurd hiss (by simp)
  have hod3 : pyOrEmptyStr (jget card "opened_date") = some (strField card "opened_date") := by
    unfold strFieldOk at hod
    unfold pyOrEmptyStr strField
    cases hj : jget card "opened_date" with
    | none => rfl
    | some v =>
      rw [hj] at hod
      cases v with
      | null => rfl
      | str s => rfl
      | bool b => exact absurd hod (by simp)
      | num n => exact absurd hod (by simp)
      | arr l => exact absurd hod (by simp)
      | obj f => exact absurd hod (by simp)
  simp only [chaseCardStep, chaseQualDate, chaseIssuer, hiss3, hod3]
  by_cases hch : pyInStr "chase" (lowerAscii (pyStrip (strField card "issuer"))) = true
  · simp only [hch, if_true]
    by_cases hds : pyStrip (strField card "opened_date") = ""
    · rw [hds]
      simp [tryParseDate_empty]
    · simp only [hds, if_false]
      cases hp : tryParseDate (pyStrip (strField card "opened_date")) with
      | none => simp
      | some dt =>
        by_cases hcut : now - 730 * usPerDay ≤ (toRataDie dt : Int) * usPerDay
        · simp [hcut]
        · simp [hcut]
  · simp [hch]

theorem chaseLoop_eq (now : Int) (cards : List JDict) :
    ∀ (count : Nat) (oldest : Option Nat),
      (∀ c ∈ cards, wfChaseCard c = true) →
      chaseLoop (now - 730 * usPerDay) cards count oldest =
        some (count + (cards.filter (chaseQualifies now)).length,
              minAcc oldest (cards.filterMap (chaseQualDate now))) := by
  induction cards with
  | nil =>
    intro count oldest _
    simp [chaseLoop, minAcc]
  | cons c t ih =>
    intro count oldest h
    have hc := h c (List.mem_cons_self c t)
    have hstep := chaseCardStep_eq now c hc
    rw [chaseLoop, hstep]
    cases hq : chaseQualDate now c with
    | none =>
      have hqf : chaseQualifies now c = false := by
        unfold chaseQualifies
        rw [hq]
        rfl
      have ht := ih count oldest (fun x hx => h x (List.mem_cons_of_mem _ hx))
      simp only [List.filter_cons, List.filterMap_cons, hq, hqf, Bool.false_eq_true,
        if_false]
      exact ht
    | some rd =>
      have hqt : chaseQualifies now c = true := by
        unfold chaseQualifies
        rw [hq]
        rfl
      have ht := ih (count + 1)
        (some (match oldest with
               | none => rd
               | some o => if rd < o then rd else o))
        (fun x hx => h x (List.mem_cons_of_mem _ hx))
      simp only [List.filter_cons, List.filterMap_cons, hq, hqt, if_true, List.length_cons,
        minAcc]
      rw [ht]
      simp only [Option.some.injEq, Prod.mk.injEq]
      exact ⟨by omega, trivial⟩

theorem chase_filter_filterMap (now : Int) (cards : List JDict) :
    (cards.filter (chaseQualifies now)).length =
      (cards.filterMap (chaseQualDate now)).length := by
  induction cards with
  | nil => rfl
  | cons c t ih =>
    by_cases h : chaseQualifies now c = true
    · obtain ⟨rd, hrd⟩ := Option.isSome_iff_exists.mp h
      simp [List.filter_cons, List.filterMap_cons, h, hrd, ih]
    · have hn : chaseQualDate now c = none := by
        unfold chaseQualifies at h
        exact Option.not_isSome_iff_eq_none.mp (by simpa using h)
      simp [List.filter_cons, List.filterMap_cons, h, hn, ih]

/-- C1 counterexample: the claim says the second component is
"not applicable" when no card qualifies, but with no Chase cards
`count_chase_5_24` returns the literal string "N/A", a different
string. -/
theorem chase_5_24_not_applicable_cex :
    count_chase_5_24 [] exNow = some (0, "N/A") ∧
    ("N/A" == "not applicable") = false :=
  ⟨rfl, rfl⟩

/-- C1 (amended: the no-qualifier marker is the string "N/A"): for every
card list with text issuer and opened-date fields and every clock `now`
(at least 730 days into the representable range, with no qualifying date
overflowing `datetime.max` when 730 days are added), `count_chase_5_24`
returns a count equal to the number of cards whose issuer contains
"chase" case-insensitively and whose opened date parses under an accepted
format to a date within the last 730 days, together with the oldest such
qualifying date plus 730 days rendered as YYYY-MM-DD, or "N/A" when no
card qualifies. -/
theorem chase_5_24_correct (cards : List JDict) (now : Int)
    (hwf : ∀ c ∈ cards, wfChaseCard c = true)
    (_hnow : 730 * usPerDay ≤ now)
    (hmax : ∀ rd ∈ cards.filterMap (chaseQualDate now), rd + 730 ≤ maxRataDie) :
    ∃ p : Nat × String, count_chase_5_24 cards now = some p ∧
      p.1 = (cards.filter (chaseQualifies now)).length ∧
      (cards.filter (chaseQualifies now) = [] → p.2 = "N/A") ∧
      (∀ o ∈ cards.filterMap (chaseQualDate now),
        (∀ x ∈ cards.filterMap (chaseQualDate now), o ≤ x) →
        p.2 = formatDate (fromRataDie (o + 730))) := by
  have hloop := chaseLoop_eq now cards 0 none hwf
  simp only [count_chase_5_24]
  rw [hloop]
  by_cases hemp : cards.filterMap (chaseQualDate now) = []
  · rw [hemp]
    refine ⟨(0 + (cards.filter (chaseQualifies now)).length, "N/A"), rfl, by simp,
      fun _ => rfl, ?_⟩
    intro o ho _
    exact absurd ho (List.not_mem_nil o)
  · obtain ⟨b, hb, hbmem, hbmin⟩ := minAcc_none_spec _ hemp
    rw [hb]
    have hble := hmax b hbmem
    simp only [hble, if_true]
    refine ⟨(0 + (cards.filter (chaseQualifies now)).length,
      formatDate (fromRataDie (b + 730))), rfl, by simp, ?_, ?_⟩
    · intro hfil
      have h1 : (cards.filter (chaseQualifies now)).length = 0 := by rw [hfil]; rfl
      rw [chase_filter_filterMap] at h1
      exact absurd (List.length_eq_zero.mp h1) hemp
    · intro o ho homin
      have h1 : o ≤ b := homin b hbmem
      have h2 : b ≤ o := hbmin o ho
      have : o = b := Nat.le_antisymm h1 h2
      rw [this]

/-- C1 witness: two concrete cards (one Chase, opened 100 days before the
clock 2025-01-01, one American Express) satisfy the hypotheses, the count
is 1 and the next eligible date is the opened date plus 730 days. -/
theorem chase_5_24_correct_witness :
    730 * usPerDay ≤ exNow ∧
    count_chase_5_24 [exChaseCard, exAmexCard] exNow = some (1, "2026-09-23") := by
  refine ⟨by decide, ?_⟩
  obtain ⟨p, hp, h1, _, h3⟩ :=
    chase_5_24_correct [exChaseCard, exAmexCard] exNow (by decide) (by decide) (by decide)
  have hp1 : p.1 = 1 := by
    rw [h1]
    decide
  have hp2 : p.2 = "2026-09-23" := by
    rw [h3 739151 (by decide) (by decide)]
    decide
  rw [hp, ← hp1, ← hp2]

theorem daysInMonth_le_31 (y m : Nat) : daysInMonth y m ≤ 31 := by
  unfold daysInMonth
  split_ifs <;> omega

theorem yearTok_iff (l : List Char) :
    yearTok l = true ↔ l.length = 4 ∧ ∀ c ∈ l, c.isDigit = true := by
  simp [yearTok, List.all_eq_true]

theorem fieldTok_iff (hi : Nat) (l : List Char) :
    fieldTok hi l = true ↔
      (l.length = 1 ∨ l.length = 2) ∧ (∀ c ∈ l, c.isDigit = true) ∧
      1 ≤ digitsVal l ∧ digitsVal l ≤ hi := by
  simp [fieldTok, List.all_eq_true, and_assoc]

/-- C2 counterexample: the claim says a real calendar date written as
MM/DD/YYYY is accepted by card validation, but `validate_date` rejects
"12/25/2023" even though it is a real date under the MM/DD/YYYY format
(as the 5/24 parser's format loop shows). -/
theorem validate_date_mdy_cex :
    validate_date "12/25/2023" = false ∧
    tryParseDate "12/25/2023" = some ⟨2023, 12, 25⟩ :=
  ⟨rfl, rfl⟩

/-- C2 (amended: the multi-format list belongs to the 5/24 date parser
only; validation accepts exactly ISO-shaped dates): for every string,
`validate_date` accepts if and only if the string is a four-digit year,
a one-or-two-digit month in 1..12 and a one-or-two-digit day, separated
by hyphens, denoting a real calendar date. -/
theorem validate_date_iff (s : String) :
    validate_date s = true ↔ specDateShape s := by
  unfold validate_date specDateShape
  rw [strptimeYmd_isSome_iff '-' (by decide) s.data]
  constructor
  · rintro ⟨ys, ms, ds, heq, hy, hm, hd, h1, h2⟩
    obtain ⟨hy1, hy2⟩ := (yearTok_iff ys).mp hy
    obtain ⟨hm1, hm2, hm3, hm4⟩ := (fieldTok_iff 12 ms).mp hm
    obtain ⟨hd1, hd2, hd3, _⟩ := (fieldTok_iff 31 ds).mp hd
    exact ⟨ys, ms, ds, heq, hy1, hy2, hm1, hm2, hd1, hd2, h1, hm3, hm4, hd3, h2⟩
  · rintro ⟨ys, ms, ds, heq, hy1, hy2, hm1, hm2, hd1, hd2, h1, hm3, hm4, hd3, h2⟩
    refine ⟨ys, ms, ds, heq, (yearTok_iff ys).mpr ⟨hy1, hy2⟩,
      (fieldTok_iff 12 ms).mpr ⟨hm1, hm2, hm3, hm4⟩,
      (fieldTok_iff 31 ds).mpr ⟨hd1, hd2, hd3, ?_⟩, h1, h2⟩
    exact le_trans h2 (daysInMonth_le_31 _ _)

/-- C2 witness: "2024-02-29" (a real leap-day date in ISO shape) is
accepted, via the characterization, and "2023-02-29" (not a real
calendar date) is rejected. -/
theorem validate_date_iff_witness :
    validate_date "2024-02-29" = true ∧ validate_date "2023-02-29" = false := by
  constructor
  · exact (validate_date_iff "2024-02-29").mpr
      ⟨['2', '0', '2', '4'], ['0', '2'], ['2', '9'], by decide⟩
  · rfl

/-- C4: `load_cards` never raises: it is a total function of the file
observation; a missing file or whitespace-only content yields the empty
list silently; malformed JSON (and an unreadable file) is reported and
yields the empty list; every other observation still yields a value,
non-empty only for a file holding a JSON array. -/
theorem load_cards_never_raises :
    load_cards FileContent.missing = ([], []) ∧
    load_cards FileContent.emptyText = ([], []) ∧
    load_cards FileContent.malformed =
      ([], ["Error: invalid JSON. Starting with an empty list."]) ∧
    load_cards FileContent.unreadable =
      ([], ["Error reading file. Starting with an empty list."]) ∧
    ∀ fc, (load_cards fc).1 = [] ∨
      ∃ l, fc = FileContent.json (JVal.arr l) ∧ load_cards fc = (l, []) := by
  refine ⟨rfl, rfl, rfl, rfl, ?_⟩
  intro fc
  cases fc with
  | missing => exact Or.inl rfl
  | unreadable => exact Or.inl rfl
  | emptyText => exact Or.inl rfl
  | malformed => exact Or.inl rfl
  | json v =>
    cases v with
    | arr l => exact Or.inr ⟨l, rfl, rfl⟩
    | null => exact Or.inl rfl
    | bool b => exact Or.inl rfl
    | num n => exact Or.inl rfl
    | str s => exact Or.inl rfl
    | obj f => exact Or.inl rfl

/-- C9: for every file whose content parses as JSON that is not an array
— including the structured two-list document — the storage-layer load
returns the empty list with no message printed. -/
theorem load_cards_non_list_empty (v : JVal) (h : ∀ l, v ≠ JVal.arr l) :
    load_cards (FileContent.json v) = ([], []) := by
  cases v with
  | arr l => exact absurd rfl (h l)
  | null => rfl
  | bool b => rfl
  | num n => rfl
  | str s => rfl
  | obj f => rfl

/-- C9 witness: a structured two-list document with one current card is
silently discarded by `load_cards`. -/
theorem load_cards_non_list_empty_witness :
    load_cards (FileContent.json
      (JVal.obj [("current", JVal.arr [JVal.obj exChaseCard]), ("wishlist", JVal.arr [])])) =
      ([], []) :=
  load_cards_non_list_empty _ (fun _ h => JVal.noConfusion h)

/-- C6: loading a legacy bare JSON array of card objects yields an empty
wishlist and the array normalized element-for-element; an object with
every field missing receives exactly the documented defaults. -/
theorem parse_legacy_array (l : List JVal) (h : ∀ j ∈ l, ∃ fs, j = JVal.obj fs) :
    parse_json_data (JVal.arr l) =
      some (l.map (fun j => normalizeFields (objFields j)), []) ∧
    normalizeFields [] =
      [("card_name", JVal.str "Unknown"), ("welcome_points", JVal.num 0),
       ("opened_date", JVal.str ""), ("issuer", JVal.str "Unknown"),
       ("benefits", JVal.str "")] := by
  constructor
  · show (mapCards normalize_card l).map (fun cs => (cs, [])) = _
    rw [mapCards_all_obj normalizeFields normalize_card (fun _ => rfl) l h]
    rfl
  · rfl

/-- C6 witness: a legacy array of one partial object and one empty object
loads with the defaults filled in and an empty wishlist. -/
theorem parse_legacy_array_witness :
    parse_json_data (JVal.arr [JVal.obj [("card_name", JVal.str "Old")], JVal.obj []]) =
      some ([[("card_name", JVal.str "Old"), ("welcome_points", JVal.num 0),
              ("opened_date", JVal.str ""), ("issuer", JVal.str "Unknown"),
              ("benefits", JVal.str "")],
             [("card_name", JVal.str "Unknown"), ("welcome_points", JVal.num 0),
              ("opened_date", JVal.str ""), ("issuer", JVal.str "Unknown"),
              ("benefits", JVal.str "")]], []) := by
  have hobj : ∀ j ∈ [JVal.obj [("card_name", JVal.str "Old")], JVal.obj ([] : JDict)],
      ∃ fs, j = JVal.obj fs := by
    intro j hj
    rcases List.mem_cons.mp hj with rfl | hj2
    · exact ⟨_, rfl⟩
    · rcases List.mem_cons.mp hj2 with rfl | hj3
      · exact ⟨_, rfl⟩
      · exact absurd hj3 (List.not_mem_nil j)
  rw [(parse_legacy_array _ hobj).1]
  rfl

/-- C10: a JSON object with no "current" key bound to a list, whose
"current" value (if any) is not a dict, parses as a single card record:
the current list is exactly the normalized object, and the wishlist comes
only from a "wishlist" list key. -/
theorem parse_dict_single_card (fields : JDict)
    (hcl : ∀ l, jget fields "current" ≠ some (JVal.arr l))
    (hcd : ∀ f, jget fields "current" ≠ some (JVal.obj f))
    (hwl : ∀ w, jget fields "wishlist" = some (JVal.arr w) → ∀ j ∈ w, ∃ fs, j = JVal.obj fs) :
    parse_json_data (JVal.obj fields) = some ([normalizeFields fields], wlOf fields) := by
  have hcur : (match jget fields "current" with
      | some (JVal.arr l) => mapCards normalize_card l
      | some (JVal.obj _) => some []
      | _ => some [normalizeFields fields]) = some [normalizeFields fields] := by
    cases hc : jget fields "current" with
    | none => rfl
    | some v =>
      cases v with
      | arr l => exact absurd hc (hcl l)
      | obj f => exact absurd hc (hcd f)
      | null => rfl
      | bool b => rfl
      | num n => rfl
      | str s => rfl
  have hwish : (match jget fields "wishlist" with
      | some (JVal.arr l) => mapCards normalize_wishlist_card l
      | _ => some []) = some (wlOf fields) := by
    unfold wlOf
    cases hw : jget fields "wishlist" with
    | none => rfl
    | some v =>
      cases v with
      | arr w =>
        exact mapCards_all_obj normalizeWishFields normalize_wishlist_card
          (fun _ => rfl) w (hwl w hw)
      | null => rfl
      | bool b => rfl
      | num n => rfl
      | str s => rfl
      | obj f => rfl
  show (match (match jget fields "current" with
      | some (JVal.arr l) => mapCards normalize_card l
      | some (JVal.obj _) => some []
      | _ => some [normalizeFields fields]),
      (match jget fields "wishlist" with
      | some (JVal.arr l) => mapCards normalize_wishlist_card l
      | _ => some []) with
    | some c, some w => some (c, w)
    | _, _ => none) = some ([normalizeFields fields], wlOf fields)
  rw [hcur, hwish]

/-- C10 witness: an object with only a card name and a "wishlist" list
key parses to that single normalized card plus the normalized wishlist. -/
theorem parse_dict_single_card_witness :
    parse_json_data (JVal.obj [("card_name", JVal.str "Solo"),
        ("wishlist", JVal.arr [JVal.obj []])]) =
      some ([[("card_name", JVal.str "Solo"), ("welcome_points", JVal.num 0),
              ("opened_date", JVal.str ""), ("issuer", JVal.str "Unknown"),
              ("benefits", JVal.str "")]],
            [[("card_name", JVal.str "Unknown"), ("issuer", JVal.str "Unknown"),
              ("target_points", JVal.num 0), ("notes", JVal.str "")]]) := by
  have hcl : ∀ l, jget [("card_name", JVal.str "Solo"), ("wishlist", JVal.arr [JVal.obj []])]
      "current" ≠ some (JVal.arr l) := fun _ h => Option.noConfusion h
  have hcd : ∀ f, jget [("card_name", JVal.str "Solo"), ("wishlist", JVal.arr [JVal.obj []])]
      "current" ≠ some (JVal.obj f) := fun _ h => Option.noConfusion h
  have hwl : ∀ w, jget [("card_name", JVal.str "Solo"), ("wishlist", JVal.arr [JVal.obj []])]
      "wishlist" = some (JVal.arr w) → ∀ j ∈ w, ∃ fs, j = JVal.obj fs := by
    intro w hw j hj
    have hw2 : w = [JVal.obj ([] : JDict)] := by
      have : some (JVal.arr [JVal.obj ([] : JDict)]) = some (JVal.arr w) := hw
      cases this
      rfl
    subst hw2
    rcases List.mem_cons.mp hj with rfl | hj2
    · exact ⟨_, rfl⟩
    · exact absurd hj2 (List.not_mem_nil j)
  rw [parse_dict_single_card _ hcl hcd hwl]
  rfl

theorem map_eq_self_of {α : Type} (f : α → α) (l : List α) (h : ∀ x ∈ l, f x = x) :
    l.map f = l := by
  induction l with
  | nil => rfl
  | cons x t ih =>
    rw [List.map_cons, h x (List.mem_cons_self x t),
      ih (fun y hy => h y (List.mem_cons_of_mem _ hy))]

/-- C5: round-trip.  Storage layer: a successful `save_cards` stores the
serialized card array and `load_cards` of that stored value returns the
same list.  Web layer: `parse_json_data` of `export_json_data` returns
the same current and wishlist records whenever the records carry the
normalized field set. -/
theorem save_load_round_trip :
    (∀ (fs : FS) (path : String) (cards : List JVal),
      parentExistsB fs path = true →
      ∃ fs2, save_cards fs false path cards = (fs2, [], false) ∧
        readFS fs2 path = some (JVal.arr cards) ∧
        load_cards (FileContent.json (JVal.arr cards)) = (cards, [])) ∧
    (∀ (current wishlist : List JDict),
      (∀ x ∈ current, normalizeFields x = x) →
      (∀ x ∈ wishlist, normalizeWishFields x = x) →
      parse_json_data (export_json_data current wishlist) = some (current, wishlist)) := by
  constructor
  · intro fs path cards hp
    refine ⟨{ fs with files := (path, JVal.arr cards) :: fs.files }, ?_, ?_, rfl⟩
    · unfold save_cards
      rw [hp]
      rfl
    · unfold readFS
      simp [List.find?]
  · intro current wishlist hc hw
    show (match (match jget [("current", JVal.arr (current.map JVal.obj)),
          ("wishlist", JVal.arr (wishlist.map JVal.obj))] "current" with
        | some (JVal.arr l) => mapCards normalize_card l
        | some (JVal.obj _) => some []
        | _ => some [normalizeFields [("current", JVal.arr (current.map JVal.obj)),
            ("wishlist", JVal.arr (wishlist.map JVal.obj))]]),
        (match jget [("current", JVal.arr (current.map JVal.obj)),
          ("wishlist", JVal.arr (wishlist.map JVal.obj))] "wishlist" with
        | some (JVal.arr l) => mapCards normalize_wishlist_card l
        | _ => some []) with
      | some c, some w => some (c, w)
      | _, _ => none) = some (current, wishlist)
    have h1 : jget [("current", JVal.arr (current.map JVal.obj)),
        ("wishlist", JVal.arr (wishlist.map JVal.obj))] "current" =
        some (JVal.arr (current.map JVal.obj)) := rfl
    have h2 : jget [("current", JVal.arr (current.map JVal.obj)),
        ("wishlist", JVal.arr (wishlist.map JVal.obj))] "wishlist" =
        some (JVal.arr (wishlist.map JVal.obj)) := rfl
    rw [h1, h2]
    show (match mapCards normalize_card (current.map JVal.obj),
        mapCards normalize_wishlist_card (wishlist.map JVal.obj) with
      | some c, some w => some (c, w)
      | _, _ => none) = some (current, wishlist)
    rw [mapCards_map_obj normalizeFields normalize_card (fun _ => rfl) current,
      mapCards_map_obj normalizeWishFields normalize_wishlist_card (fun _ => rfl) wishlist,
      map_eq_self_of normalizeFields current hc, map_eq_self_of normalizeWishFields wishlist hw]

/-- C5 witness: a concrete normalized current card and wishlist record
survive export followed by parse, and a concrete successful storage save
stores the serialized array, which loads back unchanged. -/
theorem save_load_round_trip_witness :
    parse_json_data (export_json_data [exChaseCard] [exWish]) =
      some ([exChaseCard], [exWish]) ∧
    parentExistsB ⟨["d"], []⟩ "d/cards.json" = true ∧
    readFS ⟨["d"], [("d/cards.json", JVal.arr [JVal.obj exChaseCard])]⟩ "d/cards.json" =
      some (JVal.arr [JVal.obj exChaseCard]) ∧
    load_cards (FileContent.json (JVal.arr [JVal.obj exChaseCard])) =
      ([JVal.obj exChaseCard], []) := by
  obtain ⟨fs2, h1, h2, h3⟩ :=
    save_load_round_trip.1 ⟨["d"], []⟩ "d/cards.json" [JVal.obj exChaseCard] (by decide)
  have h4 : save_cards ⟨["d"], []⟩ false "d/cards.json" [JVal.obj exChaseCard] =
      (⟨["d"], [("d/cards.json", JVal.arr [JVal.obj exChaseCard])]⟩, [], false) := rfl
  have hfs2 : (⟨["d"], [("d/cards.json", JVal.arr [JVal.obj exChaseCard])]⟩ : FS) = fs2 :=
    congrArg Prod.fst (h4.symm.trans h1)
  refine ⟨?_, by decide, ?_, h3⟩
  · apply save_load_round_trip.2
    · intro x hx
      rcases List.mem_cons.mp hx with rfl | hx2
      · rfl
      · exact absurd hx2 (List.not_mem_nil x)
    · intro x hx
      rcases List.mem_cons.mp hx with rfl | hx2
      · rfl
      · exact absurd hx2 (List.not_mem_nil x)
  · rw [hfs2]
    exact h2

/-- C8: `total_welcome_points` is the sum of the welcome points and
`total_wishlist_points` the sum of the target points, for records whose
points field is an integer or absent (an absent field contributing the
default 0); both totals are 0 on the empty list. -/
theorem totals_are_sums (cards wishlist : List JDict)
    (hc : ∀ c ∈ cards, intFieldOk c "welcome_points" = true)
    (hw : ∀ c ∈ wishlist, intFieldOk c "target_points" = true) :
    total_welcome_points cards =
      some ((cards.map (fun c => fieldInt c "welcome_points")).sum) ∧
    total_wishlist_points wishlist =
      some ((wishlist.map (fun c => fieldInt c "target_points")).sum) ∧
    total_welcome_points [] = some 0 ∧
    total_wishlist_points [] = some 0 ∧
    pointsTerm none = some 0 :=
  ⟨sumPointsLoop_eq _ _ hc, sumPointsLoop_eq _ _ hw, rfl, rfl, rfl⟩

/-- C8 witness: the spec's example: 1000 + 2000 = 3000, a record with a
missing points field contributes 0, and the empty totals are 0. -/
theorem totals_are_sums_witness :
    total_welcome_points [[("welcome_points", JVal.num 1000)],
      [("welcome_points", JVal.num 2000)], [("card_name", JVal.str "NoPoints")]] =
      some 3000 ∧
    total_wishlist_points [exWish] = some 75000 := by
  refine ⟨?_, ?_⟩
  · rw [(totals_are_sums _ [] (by decide) (by decide)).1]
    rfl
  · rw [(totals_are_sums [] [exWish] (by decide) (by decide)).2.1]
    rfl

/-- C7: `add_card` rejects an empty trimmed name, a points string that
does not parse as an integer or parses non-positively, and a malformed
date, leaving the card list unchanged in each case; it accepts every
valid triple, appending exactly one record; and `validate_points`
accepts exactly the strings parsing to a positive integer. -/
theorem add_card_validation (cards : List JDict) (n p d : String) :
    (pyStrip n = "" → add_card cards n p d = (cards, AddOutcome.nameError)) ∧
    (pyStrip n ≠ "" → pyInt p = none →
      add_card cards n p d = (cards, AddOutcome.pointsError)) ∧
    (∀ k, pyStrip n ≠ "" → pyInt p = some k → k ≤ 0 →
      add_card cards n p d = (cards, AddOutcome.pointsError)) ∧
    (∀ k, pyStrip n ≠ "" → pyInt p = some k → 0 < k → validate_date (pyStrip d) = false →
      add_card cards n p d = (cards, AddOutcome.dateError)) ∧
    (∀ k, pyStrip n ≠ "" → pyInt p = some k → 0 < k → validate_date (pyStrip d) = true →
      add_card cards n p d =
        (cards ++ [[("card_name", JVal.str (pyStrip n)),
                    ("welcome_points", JVal.num k),
                    ("opened_date", JVal.str (pyStrip d))]],
         AddOutcome.added
           [("card_name", JVal.str (pyStrip n)),
            ("welcome_points", JVal.num k),
            ("opened_date", JVal.str (pyStrip d))])) ∧
    (validate_points p = true ↔ ∃ k, pyInt p = some k ∧ 0 < k) := by
  refine ⟨?_, ?_, ?_, ?_, ?_, ?_⟩
  · intro h
    simp only [add_card, h, if_true]
  · intro hn hp
    simp only [add_card, if_neg hn, pyInt_pyStrip, hp]
  · intro k hn hp hk
    simp only [add_card, if_neg hn, pyInt_pyStrip, hp]
    simp only [if_pos hk]
  · intro k hn hp hk hd
    simp only [add_card, if_neg hn, pyInt_pyStrip, hp, if_neg (by omega : ¬k ≤ 0), hd,
      Bool.false_eq_true, if_false]
  · intro k hn hp hk hd
    simp only [add_card, if_neg hn, pyInt_pyStrip, hp, if_neg (by omega : ¬k ≤ 0), hd,
      if_true]
  · unfold validate_points
    cases hp : pyInt p with
    | none => simp
    | some k => simp

/-- C7 witness: the empty name is rejected without touching the list;
the valid triple (name, "60000", "2024-09-23") appends exactly one
record; "0" fails points validation and "750" passes. -/
theorem add_card_validation_witness :
    add_card [exAmexCard] "  " "60000" "2024-09-23" = ([exAmexCard], AddOutcome.nameError) ∧
    add_card [] " Chase Sapphire " "60000" "2024-09-23" =
      ([[("card_name", JVal.str "Chase Sapphire"),
         ("welcome_points", JVal.num 60000),
         ("opened_date", JVal.str "2024-09-23")]],
       AddOutcome.added
         [("card_name", JVal.str "Chase Sapphire"),
          ("welcome_points", JVal.num 60000),
          ("opened_date", JVal.str "2024-09-23")]) ∧
    validate_points "0" = false ∧
    validate_points "750" = true := by
  refine ⟨?_, ?_, ?_, ?_⟩
  · exact (add_card_validation [exAmexCard] "  " "60000" "2024-09-23").1 rfl
  · have h := (add_card_validation [] " Chase Sapphire " "60000" "2024-09-23").2.2.2.2.1
      60000 (by decide) rfl (by decide) rfl
    exact h
  · have h := (add_card_validation [] "x" "0" "y").2.2.2.2.2
    by_contra hcon
    rw [Bool.not_eq_false] at hcon
    obtain ⟨k, hk1, hk2⟩ := h.mp hcon
    have : k = 0 := by
      have : (some (0 : Int)) = some k := by exact hk1 ▸ rfl
      cases this
      rfl
    omega
  · exact (add_card_validation [] "x" "750" "y").2.2.2.2.2.mpr ⟨750, rfl, by decide⟩

/-- C3 counterexample: the claim says save creates the parent directory
of the path if it is absent, but with no I/O fault injected
`storage.save_cards` on a path whose parent directory does not exist
fails and raises, leaving the file system (directories included)
unchanged. -/
theorem save_cards_no_mkdir_cex :
    dirname "d/cards.json" = "d" ∧
    save_cards ⟨[], []⟩ false "d/cards.json" [] =
      (⟨[], []⟩, ["Error saving to d/cards.json"], true) :=
  ⟨rfl, rfl⟩

/-- C3 (amended: only the web front-end `save_to_file` creates the parent
directory; `storage.save_cards` opens the path directly and fails when
the parent is absent): `save_to_file` ensures the parent directory
exists, on success stores the serialized document without raising, and
on I/O failure records the error message and re-raises; `save_cards`
stores the serialized card array when the parent exists and no fault
occurs, and otherwise prints an error and re-raises. -/
theorem save_reports_and_raises (fs : FS) (ioFail : Bool) (path : String)
    (current wishlist : List JDict) (cards : List JVal) :
    (dirname path ≠ "" →
      dirname path ∈ (save_to_file fs ioFail path current wishlist).1.dirs) ∧
    (ioFail = false →
      readFS (save_to_file fs false path current wishlist).1 path =
        some (export_json_data current wishlist) ∧
      (save_to_file fs false path current wishlist).2.2 = false) ∧
    (ioFail = true →
      (save_to_file fs true path current wishlist).2.1 = "Error saving file: I/O error" ∧
      (save_to_file fs true path current wishlist).2.2 = true) ∧
    (parentExistsB fs path = true → ioFail = false →
      save_cards fs false path cards =
        ({ fs with files := (path, JVal.arr cards) :: fs.files }, [], false)) ∧
    ((parentExistsB fs path = false ∨ ioFail = true) →
      save_cards fs ioFail path cards = (fs, ["Error saving to " ++ path], true)) := by
  have hdirs : ∀ iof : Bool, (save_to_file fs iof path current wishlist).1.dirs =
      (if (decide (dirname path ≠ "") && !fs.dirs.contains (dirname path)) = true
       then dirname path :: fs.dirs else fs.dirs) := by
    intro iof
    simp only [save_to_file]
    by_cases hc : (decide (dirname path ≠ "") && !fs.dirs.contains (dirname path)) = true
    · rw [if_pos hc, if_pos hc]
      cases iof <;> rfl
    · rw [if_neg hc, if_neg hc]
      cases iof <;> rfl
  refine ⟨?_, ?_, ?_, ?_, ?_⟩
  · intro hne
    rw [hdirs ioFail]
    by_cases hmem : fs.dirs.contains (dirname path) = true
    · have hcond : ¬((decide (dirname path ≠ "") && !fs.dirs.contains (dirname path)) = true) := by
        rw [hmem]
        simp
      rw [if_neg hcond]
      exact List.mem_of_elem_eq_true hmem
    · rw [Bool.not_eq_true] at hmem
      have hcond : (decide (dirname path ≠ "") && !fs.dirs.contains (dirname path)) = true := by
        rw [hmem]
        simp [hne]
      rw [if_pos hcond]
      exact List.mem_cons_self _ _
  · intro _
    constructor
    · simp only [save_to_file, if_neg (Bool.false_ne_true)]
      unfold readFS
      simp [List.find?]
    · simp only [save_to_file, if_neg (Bool.false_ne_true)]
  · intro _
    exact ⟨rfl, rfl⟩
  · intro hp _
    unfold save_cards
    rw [hp]
    rfl
  · intro hfail
    unfold save_cards
    rcases hfail with h | h
    · rw [h]
      rfl
    · rw [h]
      simp

/-- C3 witness: on a concrete path with an absent parent directory and no
fault, `save_to_file` creates the directory and stores the document
without raising; with a fault injected it raises after recording the
error message; `save_cards` succeeds when the parent exists and raises
after printing when it does not. -/
theorem save_reports_and_raises_witness :
    dirname "d/cards.json" = "d" ∧
    dirname "d/cards.json" ∈ (save_to_file ⟨[], []⟩ false "d/cards.json" [] []).1.dirs ∧
    readFS (save_to_file ⟨[], []⟩ false "d/cards.json" [] []).1 "d/cards.json" =
      some (export_json_data [] []) ∧
    (save_to_file ⟨[], []⟩ false "d/cards.json" [] []).2.2 = false ∧
    (save_to_file ⟨[], []⟩ true "d/cards.json" [] []).2.2 = true ∧
    (parentExistsB ⟨["d"], []⟩ "d/cards.json" = true ∧
      save_cards ⟨["d"], []⟩ false "d/cards.json" [] =
        (⟨["d"], [("d/cards.json", JVal.arr [])]⟩, [], false)) ∧
    save_cards ⟨[], []⟩ false "d/cards.json" [] =
      (⟨[], []⟩, ["Error saving to " ++ "d/cards.json"], true) := by
  have h1 := save_reports_and_raises ⟨[], []⟩ false "d/cards.json" [] [] []
  have h2 := save_reports_and_raises ⟨[], []⟩ true "d/cards.json" [] [] []
  have h3 := save_reports_and_raises ⟨["d"], []⟩ false "d/cards.json" [] [] []
  refine ⟨rfl, h1.1 (by decide), (h1.2.1 rfl).1, (h1.2.1 rfl).2,
    (h2.2.2.1 rfl).2, ⟨by decide, h3.2.2.2.1 (by decide) rfl⟩,
    h1.2.2.2.2 (Or.inl (by decide))⟩
